import Mathlib

/-!
# Venom `netio/init.go`: transport bootstrap and protocol demultiplexing

A shallow embedding of `InitNode`, `isAppProtocol` and `InitTCP`.

* Every call into the operating system or into another goroutine is recorded as an
  `Op` in the order in which the executing task performs it; a `go` statement is an
  `Op.Go` carrying the description of the spawned task, whose own body is a separate
  definition (`camouflage`, `nodeAcceptLoop`, `tcpLoopStep`).
* The results of the calls that the source cannot determine (address resolution,
  dialing, binding, accepting, reading) are inputs of the model.
* The constants of package `global` (`PROTOCOL_FEATURE`, `TCP_MAX_CONNECTION`) are
  parameters.
-/

namespace Netio

/-! ## Data model -/

/-- One octet. -/
abbrev Byte := Fin 256

/-- A `net.Conn`, identified by a number. -/
abbrev Conn := Nat

/-- A resolved `*net.TCPAddr`. -/
abbrev Addr := String

/-- A `net.Listener`; `none` is the nil listener left behind by a failed bind. -/
abbrev Listener := Option Nat

/-- A `chan bool`; `none` is the nil channel, `some n` the channel made with capacity `n`. -/
abbrev Chan := Option Nat

/-- Go `error` values returned by the two entry points. -/
inductive Error where
  | INIT_TYPE_ERROR
  | net (code : Nat)
  deriving DecidableEq, Repr

/-- `const TIMEOUT = 5` -/
def TIMEOUT : Nat := 5

/-- How `isAppProtocol` sees a non-nil error of `Read`:
`timeout` when `err.(net.Error)` succeeds and `netErr.Timeout()` holds, `other` otherwise. -/
inductive ReadErr where
  | timeout
  | other
  deriving DecidableEq, Repr

/-- Outcome of `Read(conn, protocol)`: the bytes stored into the buffer, the
returned count and the returned error. -/
structure ReadResult where
  delivered : List Byte
  count : Nat
  err : Option ReadErr
  deriving DecidableEq, Repr

/-- A Go `interface{}` value; `slice` is a `[]interface{}` stored in an interface. -/
inductive Iface where
  | str (s : String)
  | num (n : Int)
  | slice (xs : List Iface)

/-- The goroutines started by `go` statements, with the values they capture. -/
inductive Task where
  /-- `go handlerFunc(conn)` in `InitNode` -/
  | handlerFunc (conn : Conn)
  /-- `go func() { for { ... } }()` in `InitNode` -/
  | nodeAcceptLoop (listener : Listener)
  /-- `go func() { port := ...; ... }()` in the accept loop of `InitNode` -/
  | camouflage (conn : Conn) (data : List Byte)
  /-- `go NetCopy(a, b)` -/
  | NetCopy (a b : Conn)
  /-- `go handlerFunc(conn, peerNodeID, c, args)` in `InitTCP`; `extra` is the
  variadic parameter list as the callee receives it -/
  | tcpHandlerFunc (conn : Conn) (peerNodeID : String) (c : Chan) (extra : List Iface)
  /-- `go func() { c := make(...); for { ... } }()` in `InitTCP` -/
  | tcpAcceptLoop (listener : Listener)

/-- Operations performed by a task, in program order. -/
inductive Op where
  | ResolveTCPAddr (service : String)
  | DialTCP (addr : Addr)
  | ListenTCP (addr : Addr)
  | ReuseportListen (service : String)
  | SetKeepAlive (conn : Conn)
  | Accept (listener : Listener)
  /-- `conn.SetReadDeadline`: `some s` is `time.Now().Add(s * time.Second)`,
  `none` is the zero time (no deadline) -/
  | SetReadDeadline (conn : Conn) (seconds : Option Nat)
  /-- `Read(conn, buf)` with `len(buf) = size` -/
  | Read (conn : Conn) (size : Nat)
  | Write (conn : Conn) (data : List Byte)
  | NetCopy (a b : Conn)
  /-- `log.Println` -/
  | Log (msg : String)
  /-- `fmt.Println` -/
  | Println (msg : String)
  /-- `c <- true` completed on the channel made with the given capacity -/
  | Send (capacity : Nat)
  | Go (task : Task)
  /-- run-time panic (slice bounds or index out of range) -/
  | Panic

/-- Results of the network calls the code makes. -/
structure Net where
  ResolveTCPAddr : String → Except Error Addr
  DialTCP : Addr → Except Error Conn
  ListenTCP : Addr → Except Error Nat
  ReuseportListen : String → Except Error Nat

/-! ## `isAppProtocol` -/

/-- `make([]byte, n)` -/
def makeBytes (n : Nat) : List Byte := List.replicate n 0

/-- Contents of `buf` after a read stored `delivered` at its start; the length of
the buffer does not change. -/
def store (buf delivered : List Byte) : List Byte :=
  (delivered ++ buf.drop delivered.length).take buf.length

/-- `buf[:count]`; `none` is the slice-bounds panic. -/
def sliceTo (buf : List Byte) (count : Nat) : Option (List Byte) :=
  if count ≤ buf.length then some (buf.take count) else none

/-- `isAppProtocol(conn)`, where `r` is the outcome of `Read(conn, protocol)`.
The first component is the returned triple (`none` if the slice expression
panics), the second the operations performed, the deferred deadline reset last. -/
def isAppProtocol (PROTOCOL_FEATURE : List Byte) (conn : Conn) (r : ReadResult) :
    Option (Bool × List Byte × Bool) × List Op :=
  let n := PROTOCOL_FEATURE.length
  let protocol := store (makeBytes n) r.delivered
  let count := r.count
  let pre := [Op.SetReadDeadline conn (some TIMEOUT), Op.Read conn n]
  let post := [Op.SetReadDeadline conn none]
  let timeout := false
  match r.err with
  | some e =>
    if e = ReadErr.timeout then
      let timeout := true
      ((sliceTo protocol count).map fun data => (false, data, timeout),
        pre ++ [Op.Println "timeout"] ++ post)
    else
      ((sliceTo protocol count).map fun data => (false, data, timeout),
        pre ++ [Op.Log "[-]Read protocol packet error: "] ++ post)
  | none =>
    if protocol = PROTOCOL_FEATURE then
      ((sliceTo protocol count).map fun data => (false, data, timeout), pre ++ post)
    else
      ((sliceTo protocol count).map fun data => (true, data, timeout), pre ++ post)

/-! ## `InitNode` -/

/-- `strings.Split(s, sep)` for a separator of one character. -/
def splitChars (sep : Char) : List Char → List (List Char)
  | [] => [[]]
  | c :: cs =>
    match splitChars sep cs with
    | [] => [[c]]
    | hd :: tl => if c = sep then [] :: hd :: tl else (c :: hd) :: tl

/-- `strings.Split(tcpService, ":")[1]`; `none` is the index-out-of-range panic. -/
def splitPort (tcpService : String) : Option String :=
  ((splitChars ':' tcpService.data)[1]?).map String.mk

/-- Body of the goroutine started for a connection classified as foreign
(lines 73-90): the operations it performs. -/
def camouflage (net : Net) (tcpService : String) (conn : Conn) (data : List Byte) : List Op :=
  match splitPort tcpService with
  | none => [Op.Panic]
  | some port =>
    let target := "127.0.0.1:" ++ port
    match net.ResolveTCPAddr target with
    | .error _ => [Op.ResolveTCPAddr target, Op.Log "[-]ResolveTCPAddr error:"]
    | .ok addr =>
      match net.DialTCP addr with
      | .error _ => [Op.ResolveTCPAddr target, Op.DialTCP addr, Op.Log "[-]DialTCP error:"]
      | .ok server =>
        [Op.ResolveTCPAddr target, Op.DialTCP addr, Op.Write server data,
          Op.Go (Task.NetCopy conn server), Op.NetCopy server conn]

/-- Result of one `listener.Accept()` together with, for an accepted connection,
the outcome of the sniffing read on it. -/
inductive Accepted where
  | error (e : Error)
  | ok (conn : Conn) (r : ReadResult)

/-- One iteration of the `for` loop of lines 64-95. The Boolean tells whether the
loop goes on (`false` after a panic). -/
def nodeIteration (PROTOCOL_FEATURE : List Byte) (listener : Listener) :
    Accepted → List Op × Bool
  | .error _ => ([Op.Accept listener, Op.Log "[-]Accept error:"], true)
  | .ok conn r =>
    match isAppProtocol PROTOCOL_FEATURE conn r with
    | (none, ops) => (Op.Accept listener :: ops ++ [Op.Panic], false)
    | (some (appProtocol, data, timeout), ops) =>
      if appProtocol || (!appProtocol && timeout) then
        (Op.Accept listener :: ops ++ [Op.Go (Task.camouflage conn data)], true)
      else
        (Op.Accept listener :: ops ++ [Op.Go (Task.handlerFunc conn)], true)

/-- The accept loop of `InitNode` run over the given sequence of accept results. -/
def nodeAcceptLoop (PROTOCOL_FEATURE : List Byte) (listener : Listener) :
    List Accepted → List Op
  | [] => []
  | a :: rest =>
    match nodeIteration PROTOCOL_FEATURE listener a with
    | (ops, true) => ops ++ nodeAcceptLoop PROTOCOL_FEATURE listener rest
    | (ops, false) => ops

/-- `InitNode(tcpType, tcpService, handlerFunc, portReuse)`: the returned error
and the operations of the calling task. -/
def InitNode (net : Net) (tcpType tcpService : String) (portReuse : Bool) :
    Option Error × List Op :=
  if tcpType = "connect" then
    match net.ResolveTCPAddr tcpService with
    | .error err => (some err, [Op.ResolveTCPAddr tcpService, Op.Log "[-]ResolveTCPAddr error:"])
    | .ok addr =>
      match net.DialTCP addr with
      | .error err =>
        (some err, [Op.ResolveTCPAddr tcpService, Op.DialTCP addr, Op.Log "[-]DialTCP error:"])
      | .ok conn =>
        (none, [Op.ResolveTCPAddr tcpService, Op.DialTCP addr, Op.SetKeepAlive conn,
          Op.Go (Task.handlerFunc conn)])
  else if tcpType = "listen" then
    if portReuse then
      match net.ReuseportListen tcpService with
      | .error err => (some err, [Op.ReuseportListen tcpService, Op.Log "[-]ListenTCP error:"])
      | .ok l => (none, [Op.ReuseportListen tcpService, Op.Go (Task.nodeAcceptLoop (some l))])
    else
      match net.ResolveTCPAddr tcpService with
      | .error err =>
        (some err, [Op.ResolveTCPAddr tcpService, Op.Log "[-]ResolveTCPAddr error:"])
      | .ok addr =>
        -- `addr, err :=` declares a new `err` in the else block; the result of
        -- `ListenTCP` is assigned to that inner variable, the outer one stays nil
        match net.ListenTCP addr with
        | .error _ =>
          (none, [Op.ResolveTCPAddr tcpService, Op.ListenTCP addr, Op.Go (Task.nodeAcceptLoop none)])
        | .ok l =>
          (none, [Op.ResolveTCPAddr tcpService, Op.ListenTCP addr,
            Op.Go (Task.nodeAcceptLoop (some l))])
  else
    (some Error.INIT_TYPE_ERROR, [])

/-! ## `InitTCP` -/

/-- `InitTCP(tcpType, tcpService, peerNodeID, handlerFunc, args...)`: the returned
error and the operations of the calling task. `args` is the slice holding the
variadic arguments of the call; `handlerFunc(conn, peerNodeID, nil, args)` passes
that slice as one argument, so the variadic list the handler receives has the
single element `args`. -/
def InitTCP (net : Net) (tcpType tcpService peerNodeID : String) (args : List Iface) :
    Option Error × List Op :=
  if tcpType = "connect" then
    match net.ResolveTCPAddr tcpService with
    | .error err => (some err, [Op.ResolveTCPAddr tcpService, Op.Log "[-]ResolveTCPAddr error:"])
    | .ok addr =>
      match net.DialTCP addr with
      | .error err =>
        (some err, [Op.ResolveTCPAddr tcpService, Op.DialTCP addr, Op.Log "[-]DialTCP error:"])
      | .ok conn =>
        (none, [Op.ResolveTCPAddr tcpService, Op.DialTCP addr,
          Op.Go (Task.tcpHandlerFunc conn peerNodeID none [Iface.slice args])])
  else if tcpType = "listen" then
    match net.ResolveTCPAddr tcpService with
    | .error err => (some err, [Op.ResolveTCPAddr tcpService, Op.Log "[-]ResolveTCPAddr error:"])
    | .ok addr =>
      match net.ListenTCP addr with
      | .error err =>
        (some err, [Op.ResolveTCPAddr tcpService, Op.ListenTCP addr, Op.Log "[-]ListenTCP error:"])
      | .ok l =>
        (none, [Op.ResolveTCPAddr tcpService, Op.ListenTCP addr,
          Op.Go (Task.tcpAcceptLoop (some l))])
  else
    (some Error.INIT_TYPE_ERROR, [])

/-- Where the accept loop of `InitTCP` stands: before `c <- true` has completed,
or inside `listener.Accept()`. -/
inductive LoopPc where
  | send
  | accept
  deriving DecidableEq, Repr

/-- State of the goroutine of lines 174-185 and of the handlers it started. -/
structure TcpLoop where
  pc : LoopPc
  /-- number of values held by the channel `c` -/
  tokens : Nat
  /-- handlers spawned and not yet finished -/
  running : Nat
  /-- calls of `listener.Accept()` issued so far -/
  accepts : Nat
  /-- values received from `c` by handlers so far -/
  released : Nat
  /-- operations of the loop goroutine so far -/
  ops : List Op

/-- What can happen next. -/
inductive TcpEvent where
  /-- `c <- true` completes and the loop calls `listener.Accept()` -/
  | send
  /-- the pending `listener.Accept()` returns -/
  | accept (r : Except Error Conn)
  /-- a running handler receives one value from `c` and finishes -/
  | finish

/-- State after `c := make(chan bool, global.TCP_MAX_CONNECTION)`. -/
def tcpLoopInit : TcpLoop :=
  { pc := LoopPc.send, tokens := 0, running := 0, accepts := 0, released := 0, ops := [] }

/-- One step of the loop or of a handler; `none` when the event cannot happen in
state `s` (a send on a full channel blocks, as does a receive on an empty one). -/
def tcpLoopStep (TCP_MAX_CONNECTION : Nat) (listener : Listener) (peerNodeID : String)
    (args : List Iface) (s : TcpLoop) : TcpEvent → Option TcpLoop
  | .send =>
    if s.pc = LoopPc.send ∧ s.tokens < TCP_MAX_CONNECTION then
      some { s with
        pc := LoopPc.accept, tokens := s.tokens + 1, accepts := s.accepts + 1,
        ops := s.ops ++ [Op.Send TCP_MAX_CONNECTION, Op.Accept listener] }
    else none
  | .accept (.error _) =>
    if s.pc = LoopPc.accept then
      some { s with pc := LoopPc.send, ops := s.ops ++ [Op.Log "[-]Accept error:"] }
    else none
  | .accept (.ok conn) =>
    if s.pc = LoopPc.accept then
      some { s with
        pc := LoopPc.send, running := s.running + 1,
        ops := s.ops ++ [Op.Go (Task.tcpHandlerFunc conn peerNodeID
          (some TCP_MAX_CONNECTION) [Iface.slice args])] }
    else none
  | .finish =>
    if 0 < s.running ∧ 0 < s.tokens then
      some { s with
        tokens := s.tokens - 1, running := s.running - 1, released := s.released + 1 }
    else none

/-- Run a sequence of events from state `s`; `none` if one of them cannot happen. -/
def tcpLoopRun (TCP_MAX_CONNECTION : Nat) (listener : Listener) (peerNodeID : String)
    (args : List Iface) (s : TcpLoop) : List TcpEvent → Option TcpLoop
  | [] => some s
  | e :: es =>
    match tcpLoopStep TCP_MAX_CONNECTION listener peerNodeID args s e with
    | none => none
    | some s1 => tcpLoopRun TCP_MAX_CONNECTION listener peerNodeID args s1 es

/-- What holds in every state of the loop of `InitTCP`: the channel never holds
more than its capacity, every running handler and the pending `Accept` are backed
by a value in the channel, and every `Accept` issued put one value there. -/
def TcpInv (capacity : Nat) (s : TcpLoop) : Prop :=
  s.tokens ≤ capacity
    ∧ s.running + (if s.pc = LoopPc.accept then 1 else 0) ≤ s.tokens
    ∧ s.accepts = s.tokens + s.released

/-! ## The relay on byte streams -/

/-- Byte streams of the open connections, seen from this process. -/
structure Wire where
  /-- bytes the remote end of the connection has sent that were not read yet -/
  pending : Conn → List Byte
  /-- bytes written to the connection so far -/
  written : Conn → List Byte

/-- Modelled from the spec: the helper `Write` of this package is not in the
source; `write(conn, data)` is a "best-effort full write of `data`". -/
def Write (w : Wire) (conn : Conn) (data : List Byte) : Wire :=
  { w with written := Function.update w.written conn (w.written conn ++ data) }

/-- Modelled from the spec: the helper `NetCopy` of this package is not in the
source; `copy(dst, src)` "continuously reads from `src` and writes to `dst`".
This is one iteration, reading at most `n` of the bytes available on `src`. -/
def NetCopyStep (w : Wire) (dst src : Conn) (n : Nat) : Wire :=
  Write { w with pending := Function.update w.pending src ((w.pending src).drop n) }
    dst ((w.pending src).take n)

/-- One scheduled iteration of either copy started in lines 88-89: for `(true, n)`
the spawned `NetCopy(conn, server)`, for `(false, n)` the synchronous
`NetCopy(server, conn)`, reading at most `n` bytes. -/
def relayStep (conn server : Conn) (w : Wire) (e : Bool × Nat) : Wire :=
  if e.1 then NetCopyStep w conn server e.2 else NetCopyStep w server conn e.2

/-- Lines 87-89: `Write(server, data)`, then `go NetCopy(conn, server)` and
`NetCopy(server, conn)` running side by side, their iterations interleaved as
`sched` says. -/
def relay (w : Wire) (conn server : Conn) (data : List Byte) (sched : List (Bool × Nat)) : Wire :=
  sched.foldl (relayStep conn server) (Write w server data)

/-- Number of bytes the synchronous copy is scheduled to read. -/
def budget : List (Bool × Nat) → Nat
  | [] => 0
  | (true, _) :: es => budget es
  | (false, n) :: es => n + budget es

/-! ## Reading traces -/

/-- The tasks started by the `go` statements of a trace, in order. -/
def spawned (ops : List Op) : List Task :=
  ops.filterMap fun op => match op with
    | Op.Go t => some t
    | _ => none

/-- The addresses dialed in a trace, in order. -/
def dials (ops : List Op) : List Addr :=
  ops.filterMap fun op => match op with
    | Op.DialTCP a => some a
    | _ => none

/-- The handler invocations of `InitTCP` in a trace: for each, the peer node ID
and the variadic parameter list the handler receives. -/
def handlerCalls (ops : List Op) : List (String × List Iface) :=
  ops.filterMap fun op => match op with
    | Op.Go (Task.tcpHandlerFunc _ peerNodeID _ extra) => some (peerNodeID, extra)
    | _ => none

/-- Body of a spawned task where this file determines it; the handlers are the
caller's code and the loops need further inputs, they contribute nothing here. -/
def taskBody (net : Net) (tcpService : String) : Task → List Op
  | Task.camouflage conn data => camouflage net tcpService conn data
  | _ => []

/-- Everything one result of `Accept` causes in `InitNode`: the operations of the
loop iteration, then those of the camouflage goroutine if the iteration starts it. -/
def connectionOps (net : Net) (tcpService : String) (PROTOCOL_FEATURE : List Byte)
    (listener : Listener) (a : Accepted) : List Op :=
  let ops := (nodeIteration PROTOCOL_FEATURE listener a).1
  ops ++ (spawned ops).flatMap (taskBody net tcpService)

/-! ## Sample inputs -/

/-- The marker `ABCDEFGH` named in the comment above `isAppProtocol`. -/
def sampleFeature : List Byte := [65, 66, 67, 68, 69, 70, 71, 72]

/-- The bytes `GET / HT`. -/
def sampleHttp : List Byte := [71, 69, 84, 32, 47, 32, 72, 84]

/-- A read that stored `GET` and then failed with a connection reset. -/
def sampleReset : ReadResult := { delivered := [71, 69, 84], count := 3, err := some ReadErr.other }

/-- A read that stored `GE` before the deadline passed. -/
def sampleStall : ReadResult := { delivered := [71, 69], count := 2, err := some ReadErr.timeout }

/-- A network in which every call succeeds: an address resolves to itself, a dial
yields connection 100, a bind yields listener 1 (2 with port reuse). -/
def sampleNet : Net :=
  { ResolveTCPAddr := fun s => .ok s, DialTCP := fun _ => .ok 100, ListenTCP := fun _ => .ok 1,
    ReuseportListen := fun _ => .ok 2 }

/-- An accept error followed by an accepted connection. -/
def sampleEvents : List TcpEvent :=
  [TcpEvent.send, TcpEvent.accept (.error (Error.net 1)), TcpEvent.send, TcpEvent.accept (.ok 7)]

/-- The state of the loop of `InitTCP` after `sampleEvents`, with capacity 2. -/
def sampleState : TcpLoop :=
  { pc := LoopPc.send, tokens := 2, running := 1, accepts := 2, released := 0,
    ops := [Op.Send 2, Op.Accept (some 1), Op.Log "[-]Accept error:", Op.Send 2,
      Op.Accept (some 1), Op.Go (Task.tcpHandlerFunc 7 "peer" (some 2) [Iface.slice []])] }

/-- A wire on which the client of connection 7 has sent `ET /` after the sniffed
byte `G` and nothing was written yet. -/
def sampleWire : Wire :=
  { pending := fun c => if c = 7 then [69, 84, 32, 47] else [], written := fun _ => [] }

/-! ## Lemmas on the read buffer -/

theorem store_length (buf d : List Byte) : (store buf d).length = buf.length := by
  unfold store
  rw [List.length_take, List.length_append, List.length_drop]
  omega

theorem store_full (d : List Byte) (n : Nat) (h : d.length = n) : store (makeBytes n) d = d := by
  unfold store makeBytes
  rw [List.drop_of_length_le (by simp [h])]
  simp [h]

theorem sliceTo_of_le (buf : List Byte) (count : Nat) (h : count ≤ buf.length) :
    sliceTo buf count = some (buf.take count) := by
  simp [sliceTo, h]

theorem protocol_length (n : Nat) (d : List Byte) : (store (makeBytes n) d).length = n := by
  rw [store_length]
  simp [makeBytes]

theorem take_store (n : Nat) (d : List Byte) (h : d.length ≤ n) :
    (store (makeBytes n) d).take d.length = d := by
  unfold store makeBytes
  rw [List.take_take]
  simp [h]

/-! ## `isAppProtocol`: the three outcomes of the read -/

/-- C1: when the read stores a sequence `b` of `len(PROTOCOL_FEATURE)` bytes and
reports that count with a nil error, `isAppProtocol` returns
`(b != PROTOCOL_FEATURE, b, false)`; the marker gives `false`, any other sequence
of that length gives `true`. -/
theorem isAppProtocol_full (PF : List Byte) (conn : Conn) (b : List Byte)
    (hb : b.length = PF.length) :
    (isAppProtocol PF conn { delivered := b, count := PF.length, err := none }).1
        = some (decide (b ≠ PF), b, false)
      ∧ (isAppProtocol PF conn { delivered := PF, count := PF.length, err := none }).1
        = some (false, PF, false)
      ∧ (b ≠ PF → (isAppProtocol PF conn { delivered := b, count := PF.length, err := none }).1
        = some (true, b, false)) := by
  have key : ∀ c : List Byte, c.length = PF.length →
      (isAppProtocol PF conn { delivered := c, count := PF.length, err := none }).1
        = some (decide (c ≠ PF), c, false) := by
    intro c hc
    have hs : store (makeBytes PF.length) c = c := store_full c PF.length hc
    have hsl : sliceTo c PF.length = some c := by
      rw [sliceTo_of_le c PF.length (by omega), ← hc, List.take_length]
    by_cases h : c = PF
    · subst h
      simp [isAppProtocol, hs, hsl]
    · simp [isAppProtocol, hs, hsl, h]
  refine ⟨key b hb, ?_, ?_⟩
  · simpa using key PF rfl
  · intro hne
    simpa [hne] using key b hb

/-- C1 at the marker `ABCDEFGH` and the eight bytes `GET / HT`. -/
theorem isAppProtocol_full_witness :
    sampleHttp.length = sampleFeature.length
      ∧ ((isAppProtocol sampleFeature 7
            { delivered := sampleHttp, count := sampleFeature.length, err := none }).1
          = some (decide (sampleHttp ≠ sampleFeature), sampleHttp, false)
        ∧ (isAppProtocol sampleFeature 7
            { delivered := sampleFeature, count := sampleFeature.length, err := none }).1
          = some (false, sampleFeature, false)
        ∧ (sampleHttp ≠ sampleFeature →
          (isAppProtocol sampleFeature 7
            { delivered := sampleHttp, count := sampleFeature.length, err := none }).1
          = some (true, sampleHttp, false))) :=
  ⟨by decide, isAppProtocol_full sampleFeature 7 sampleHttp (by decide)⟩

/-- C2: when the read fails with a timeout error and reports
`count <= len(PROTOCOL_FEATURE)`, `isAppProtocol` returns `timedOut = true`,
`isApplicationProtocol = false` and as consumed bytes the first `count` bytes of
the buffer, a sequence of length `count` (empty when `count = 0`); when `count` is
the number of bytes the read stored, these are the stored bytes. -/
theorem isAppProtocol_timeout (PF : List Byte) (conn : Conn) (r : ReadResult)
    (herr : r.err = some ReadErr.timeout) (hcount : r.count ≤ PF.length) :
    (isAppProtocol PF conn r).1
        = some (false, (store (makeBytes PF.length) r.delivered).take r.count, true)
      ∧ ((store (makeBytes PF.length) r.delivered).take r.count).length = r.count
      ∧ ((store (makeBytes PF.length) r.delivered).take r.count).length ≤ PF.length
      ∧ (r.count = 0 → (isAppProtocol PF conn r).1 = some (false, [], true))
      ∧ (r.delivered.length = r.count →
          (isAppProtocol PF conn r).1 = some (false, r.delivered, true)) := by
  have hlen := protocol_length PF.length r.delivered
  have hsl := sliceTo_of_le (store (makeBytes PF.length) r.delivered) r.count (by omega)
  have h1 : (isAppProtocol PF conn r).1
      = some (false, (store (makeBytes PF.length) r.delivered).take r.count, true) := by
    simp [isAppProtocol, herr, hsl]
  refine ⟨h1, ?_, ?_, ?_, ?_⟩
  · rw [List.length_take]; omega
  · rw [List.length_take]; omega
  · intro h0
    rw [h1, h0]
    simp
  · intro hd
    rw [h1, ← hd, take_store PF.length r.delivered (by omega)]

/-- C2 at a read that stored `GE` and then timed out, with the marker `ABCDEFGH`. -/
theorem isAppProtocol_timeout_witness :
    (sampleStall.err = some ReadErr.timeout ∧ sampleStall.count ≤ sampleFeature.length)
      ∧ (isAppProtocol sampleFeature 7 sampleStall).1 = some (false, [71, 69], true) :=
  ⟨⟨by decide, by decide⟩,
    ((isAppProtocol_timeout sampleFeature 7 sampleStall (by decide) (by decide)).2.2.2.2
      (by decide))⟩

/-! ## The accept loop of `InitNode` -/

theorem spawned_isAppProtocol (PF : List Byte) (conn : Conn) (r : ReadResult) :
    spawned (isAppProtocol PF conn r).2 = [] := by
  unfold isAppProtocol
  rcases r.err with _ | e
  · by_cases h : store (makeBytes PF.length) r.delivered = PF <;> simp [h, spawned]
  · by_cases h : e = ReadErr.timeout <;> simp [h, spawned]

theorem dials_isAppProtocol (PF : List Byte) (conn : Conn) (r : ReadResult) :
    dials (isAppProtocol PF conn r).2 = [] := by
  unfold isAppProtocol
  rcases r.err with _ | e
  · by_cases h : store (makeBytes PF.length) r.delivered = PF <;> simp [h, dials]
  · by_cases h : e = ReadErr.timeout <;> simp [h, dials]

theorem nodeIteration_of_some (PF : List Byte) (listener : Listener) (conn : Conn)
    (r : ReadResult) (a : Bool) (d : List Byte) (t : Bool)
    (h : (isAppProtocol PF conn r).1 = some (a, d, t)) :
    nodeIteration PF listener (Accepted.ok conn r)
      = (Op.Accept listener :: (isAppProtocol PF conn r).2
          ++ [Op.Go (if a || t then Task.camouflage conn d else Task.handlerFunc conn)], true) := by
  unfold nodeIteration
  rcases hq : isAppProtocol PF conn r with ⟨res, ops⟩
  rw [hq] at h
  simp only at h
  subst h
  cases a <;> cases t <;> simp [hq]

theorem spawned_nodeIteration (PF : List Byte) (listener : Listener) (conn : Conn)
    (r : ReadResult) (a : Bool) (d : List Byte) (t : Bool)
    (h : (isAppProtocol PF conn r).1 = some (a, d, t)) :
    spawned (nodeIteration PF listener (Accepted.ok conn r)).1
      = [if a || t then Task.camouflage conn d else Task.handlerFunc conn] := by
  rw [nodeIteration_of_some PF listener conn r a d t h]
  have hs := spawned_isAppProtocol PF conn r
  unfold spawned at hs ⊢
  simp [List.filterMap_append, hs]

theorem dials_nodeIteration (PF : List Byte) (listener : Listener) (conn : Conn)
    (r : ReadResult) (a : Bool) (d : List Byte) (t : Bool)
    (h : (isAppProtocol PF conn r).1 = some (a, d, t)) :
    dials (nodeIteration PF listener (Accepted.ok conn r)).1 = [] := by
  rw [nodeIteration_of_some PF listener conn r a d t h]
  have hs := dials_isAppProtocol PF conn r
  unfold dials at hs ⊢
  simp [List.filterMap_append, hs]

theorem isAppProtocol_other (PF : List Byte) (conn : Conn) (r : ReadResult)
    (herr : r.err = some ReadErr.other) (hcount : r.count ≤ PF.length) :
    isAppProtocol PF conn r
      = (some (false, (store (makeBytes PF.length) r.delivered).take r.count, false),
          [Op.SetReadDeadline conn (some TIMEOUT), Op.Read conn PF.length,
            Op.Log "[-]Read protocol packet error: ", Op.SetReadDeadline conn none]) := by
  have hlen := protocol_length PF.length r.delivered
  have hsl := sliceTo_of_le (store (makeBytes PF.length) r.delivered) r.count (by omega)
  simp [isAppProtocol, herr, hsl]

/-- C3 (as stated, refuted): a connection whose sniff read stored `GET` and then
failed with a connection reset is handed to `handlerFunc`; no camouflage
goroutine is started for it and nothing is dialed. -/
theorem read_error_not_relayed :
    spawned (nodeIteration sampleFeature (some 1) (Accepted.ok 7 sampleReset)).1
        = [Task.handlerFunc 7]
      ∧ dials (connectionOps sampleNet ":8080" sampleFeature (some 1)
          (Accepted.ok 7 sampleReset)) = []
      ∧ ¬ ∃ d, Task.camouflage 7 d
          ∈ spawned (nodeIteration sampleFeature (some 1) (Accepted.ok 7 sampleReset)).1 := by
  have h : spawned (nodeIteration sampleFeature (some 1) (Accepted.ok 7 sampleReset)).1
      = [Task.handlerFunc 7] := rfl
  refine ⟨h, rfl, ?_⟩
  rw [h]
  simp

/-- C3 (amended): when the sniff read of an accepted connection fails with an error
that is not a timeout and reports `count <= len(PROTOCOL_FEATURE)`,
`isAppProtocol` logs the error and returns `(false, protocol[:count], false)`, and
the accept loop of `InitNode` hands the connection to `handlerFunc`: that is the
only task the iteration starts, no camouflage goroutine runs and nothing is dialed. -/
theorem nodeIteration_read_error (net : Net) (tcpService : String) (PF : List Byte)
    (listener : Listener) (conn : Conn) (r : ReadResult)
    (herr : r.err = some ReadErr.other) (hcount : r.count ≤ PF.length) :
    (isAppProtocol PF conn r).1
        = some (false, (store (makeBytes PF.length) r.delivered).take r.count, false)
      ∧ (nodeIteration PF listener (Accepted.ok conn r)).1
        = [Op.Accept listener, Op.SetReadDeadline conn (some TIMEOUT), Op.Read conn PF.length,
            Op.Log "[-]Read protocol packet error: ", Op.SetReadDeadline conn none,
            Op.Go (Task.handlerFunc conn)]
      ∧ spawned (nodeIteration PF listener (Accepted.ok conn r)).1 = [Task.handlerFunc conn]
      ∧ connectionOps net tcpService PF listener (Accepted.ok conn r)
        = (nodeIteration PF listener (Accepted.ok conn r)).1
      ∧ dials (connectionOps net tcpService PF listener (Accepted.ok conn r)) = [] := by
  have h := isAppProtocol_other PF conn r herr hcount
  have h1 : (isAppProtocol PF conn r).1
      = some (false, (store (makeBytes PF.length) r.delivered).take r.count, false) := by
    rw [h]
  have hit : (nodeIteration PF listener (Accepted.ok conn r)).1
      = [Op.Accept listener, Op.SetReadDeadline conn (some TIMEOUT), Op.Read conn PF.length,
          Op.Log "[-]Read protocol packet error: ", Op.SetReadDeadline conn none,
          Op.Go (Task.handlerFunc conn)] := by
    rw [nodeIteration_of_some PF listener conn r _ _ _ h1, h]
    simp
  have hsp : spawned (nodeIteration PF listener (Accepted.ok conn r)).1
      = [Task.handlerFunc conn] := by
    rw [hit]; rfl
  have hco : connectionOps net tcpService PF listener (Accepted.ok conn r)
      = (nodeIteration PF listener (Accepted.ok conn r)).1 := by
    unfold connectionOps
    simp only [hsp]
    simp [taskBody]
  refine ⟨h1, hit, hsp, hco, ?_⟩
  rw [hco, hit]
  rfl

/-- C3 (amended) at a read that stored `GET` and then failed with a reset. -/
theorem nodeIteration_read_error_witness :
    (sampleReset.err = some ReadErr.other ∧ sampleReset.count ≤ sampleFeature.length)
      ∧ (nodeIteration sampleFeature (some 1) (Accepted.ok 7 sampleReset)).1
        = [Op.Accept (some 1), Op.SetReadDeadline 7 (some TIMEOUT),
            Op.Read 7 sampleFeature.length,
            Op.Log "[-]Read protocol packet error: ", Op.SetReadDeadline 7 none,
            Op.Go (Task.handlerFunc 7)] :=
  ⟨⟨by decide, by decide⟩,
    (nodeIteration_read_error sampleNet ":8080" sampleFeature (some 1) 7 sampleReset
      (by decide) (by decide)).2.1⟩

theorem isAppProtocol_marker (PF : List Byte) (conn : Conn) :
    (isAppProtocol PF conn { delivered := PF, count := PF.length, err := none }).1
      = some (false, PF, false) := by
  have hs : store (makeBytes PF.length) PF = PF := store_full PF PF.length rfl
  have hsl : sliceTo PF PF.length = some PF := by
    rw [sliceTo_of_le PF PF.length (le_refl _), List.take_length]
  simp [isAppProtocol, hs, hsl]

theorem isAppProtocol_silent (PF : List Byte) (conn : Conn) (r : ReadResult)
    (herr : r.err = some ReadErr.timeout) (hcount : r.count = 0) :
    (isAppProtocol PF conn r).1 = some (false, [], true) := by
  simp [isAppProtocol, herr, hcount, sliceTo]

theorem connectionOps_of_some (net : Net) (tcpService : String) (PF : List Byte)
    (listener : Listener) (conn : Conn) (r : ReadResult) (a : Bool) (d : List Byte) (t : Bool)
    (h : (isAppProtocol PF conn r).1 = some (a, d, t)) :
    connectionOps net tcpService PF listener (Accepted.ok conn r)
      = (nodeIteration PF listener (Accepted.ok conn r)).1
        ++ (if a || t then camouflage net tcpService conn d else []) := by
  unfold connectionOps
  simp only [spawned_nodeIteration PF listener conn r a d t h]
  cases a <;> cases t <;> simp [taskBody]

/-- C4: for an accepted connection with sniff result `(a, d, t)` the accept loop of
`InitNode` starts exactly one task: the camouflage goroutine, with the consumed
bytes `d`, if and only if `a` or `t` is true, and `handlerFunc` on the connection
otherwise, in which case nothing is dialed. A connection that sent the marker goes
to `handlerFunc` with no dial; one that timed out having sent nothing goes to the
camouflage goroutine with no consumed bytes. -/
theorem nodeIteration_routing (net : Net) (tcpService : String) (PF : List Byte)
    (listener : Listener) (conn : Conn) (r : ReadResult) (a : Bool) (d : List Byte) (t : Bool)
    (h : (isAppProtocol PF conn r).1 = some (a, d, t)) :
    spawned (nodeIteration PF listener (Accepted.ok conn r)).1
        = [if a || t then Task.camouflage conn d else Task.handlerFunc conn]
      ∧ (Task.camouflage conn d ∈ spawned (nodeIteration PF listener (Accepted.ok conn r)).1
          ↔ (a || t) = true)
      ∧ (Task.handlerFunc conn ∈ spawned (nodeIteration PF listener (Accepted.ok conn r)).1
          ↔ (a || t) = false)
      ∧ ((a || t) = true →
          connectionOps net tcpService PF listener (Accepted.ok conn r)
            = (nodeIteration PF listener (Accepted.ok conn r)).1
              ++ camouflage net tcpService conn d)
      ∧ ((a || t) = false →
          dials (connectionOps net tcpService PF listener (Accepted.ok conn r)) = [])
      ∧ (spawned (nodeIteration PF listener
            (Accepted.ok conn { delivered := PF, count := PF.length, err := none })).1
          = [Task.handlerFunc conn]
        ∧ dials (connectionOps net tcpService PF listener
            (Accepted.ok conn { delivered := PF, count := PF.length, err := none })) = [])
      ∧ (∀ r0 : ReadResult, r0.err = some ReadErr.timeout → r0.count = 0 →
          spawned (nodeIteration PF listener (Accepted.ok conn r0)).1
            = [Task.camouflage conn []]) := by
  have hsp := spawned_nodeIteration PF listener conn r a d t h
  have hco := connectionOps_of_some net tcpService PF listener conn r a d t h
  have hdi := dials_nodeIteration PF listener conn r a d t h
  have hm := isAppProtocol_marker PF conn
  refine ⟨hsp, ?_, ?_, ?_, ?_, ⟨?_, ?_⟩, ?_⟩
  · rw [hsp]
    cases a <;> cases t <;> simp
  · rw [hsp]
    cases a <;> cases t <;> simp
  · intro hat
    rw [hco, hat]
    simp
  · intro hat
    rw [hco, hat]
    simpa using hdi
  · simpa using spawned_nodeIteration PF listener conn _ _ _ _ hm
  · rw [connectionOps_of_some net tcpService PF listener conn _ _ _ _ hm]
    simpa using dials_nodeIteration PF listener conn _ _ _ _ hm
  · intro r0 herr hcount
    simpa using spawned_nodeIteration PF listener conn r0 _ _ _
      (isAppProtocol_silent PF conn r0 herr hcount)

/-- C4 at a connection whose sniff timed out after two bytes. -/
theorem nodeIteration_routing_witness :
    (isAppProtocol sampleFeature 7 sampleStall).1 = some (false, [71, 69], true)
      ∧ spawned (nodeIteration sampleFeature (some 1) (Accepted.ok 7 sampleStall)).1
        = [if false || true then Task.camouflage 7 [71, 69] else Task.handlerFunc 7] :=
  ⟨by decide,
    (nodeIteration_routing sampleNet ":8080" sampleFeature (some 1) 7 sampleStall
      false [71, 69] true (by decide)).1⟩

/-! ## Where the sniff runs -/

/-- C7: for every role string other than `connect` and `listen`, whatever the
address, the port-reuse flag, the peer node ID and the extra arguments, `InitNode`
and `InitTCP` return `INIT_TYPE_ERROR` and perform no operation at all: nothing is
resolved, dialed or bound and no task is started. -/
theorem invalid_role (net : Net) (tcpType tcpService peerNodeID : String) (portReuse : Bool)
    (args : List Iface) (hc : tcpType ≠ "connect") (hl : tcpType ≠ "listen") :
    InitNode net tcpType tcpService portReuse = (some Error.INIT_TYPE_ERROR, [])
      ∧ InitTCP net tcpType tcpService peerNodeID args = (some Error.INIT_TYPE_ERROR, []) := by
  simp [InitNode, InitTCP, hc, hl]

/-- C7 at the role `Listen`. -/
theorem invalid_role_witness :
    ("Listen" ≠ "connect" ∧ "Listen" ≠ "listen")
      ∧ InitNode sampleNet "Listen" ":8080" true = (some Error.INIT_TYPE_ERROR, [])
      ∧ InitTCP sampleNet "Listen" ":8080" "peer" [Iface.num 1]
        = (some Error.INIT_TYPE_ERROR, []) :=
  ⟨⟨by decide, by decide⟩,
    invalid_role sampleNet "Listen" ":8080" "peer" true [Iface.num 1] (by decide) (by decide)⟩

/-! ## The accept loop of `InitTCP` -/

theorem tcpInv_init (capacity : Nat) : TcpInv capacity tcpLoopInit := by
  simp [TcpInv, tcpLoopInit]

theorem tcpInv_step (capacity : Nat) (listener : Listener) (peerNodeID : String)
    (args : List Iface) (s s1 : TcpLoop) (e : TcpEvent) (hinv : TcpInv capacity s)
    (hstep : tcpLoopStep capacity listener peerNodeID args s e = some s1) :
    TcpInv capacity s1 := by
  obtain ⟨h1, h2, h3⟩ := hinv
  cases e with
  | send =>
    simp only [tcpLoopStep] at hstep
    split at hstep
    · rename_i hg
      cases hstep
      simp only [TcpInv]
      simp [hg.1] at h2
      refine ⟨by omega, by simp; omega, by omega⟩
    · cases hstep
  | accept r =>
    cases r with
    | error err =>
      simp only [tcpLoopStep] at hstep
      split at hstep
      · rename_i hg
        cases hstep
        simp only [TcpInv]
        simp [hg] at h2
        refine ⟨h1, by simp; omega, h3⟩
      · cases hstep
    | ok conn =>
      simp only [tcpLoopStep] at hstep
      split at hstep
      · rename_i hg
        cases hstep
        simp only [TcpInv]
        simp [hg] at h2
        refine ⟨h1, by simp; omega, h3⟩
      · cases hstep
  | finish =>
    simp only [tcpLoopStep] at hstep
    split at hstep
    · rename_i hg
      cases hstep
      simp only [TcpInv]
      refine ⟨by omega, ?_, by omega⟩
      by_cases hp : s.pc = LoopPc.accept
      · simp [hp] at h2 ⊢; omega
      · simp [hp] at h2 ⊢; omega
    · cases hstep

theorem tcpInv_run (capacity : Nat) (listener : Listener) (peerNodeID : String)
    (args : List Iface) (evs : List TcpEvent) :
    ∀ s s1 : TcpLoop, TcpInv capacity s →
      tcpLoopRun capacity listener peerNodeID args s evs = some s1 → TcpInv capacity s1 := by
  induction evs with
  | nil =>
    intro s s1 hinv hrun
    simp only [tcpLoopRun] at hrun
    cases hrun
    exact hinv
  | cons e es ih =>
    intro s s1 hinv hrun
    simp only [tcpLoopRun] at hrun
    cases hstep : tcpLoopStep capacity listener peerNodeID args s e with
    | none => rw [hstep] at hrun; cases hrun
    | some s2 =>
      rw [hstep] at hrun
      exact ih s2 s1 (tcpInv_step capacity listener peerNodeID args s s2 e hinv hstep) hrun

/-- C6: in every state the loop of `InitTCP` reaches from its start, by any sequence
of completed sends, accept successes, accept errors and handler completions (a
handler receives one value from the channel when it finishes), the number of
handlers started and not finished is at most `TCP_MAX_CONNECTION`, and the number
of `Accept` calls issued is at most `TCP_MAX_CONNECTION` plus the number of values
handlers have received. With capacity 2, after two accepted connections the third
send cannot complete and no third `Accept` is issued; once one handler has
finished it is. -/
theorem admission_bound (capacity : Nat) (listener : Listener) (peerNodeID : String)
    (args : List Iface) (evs : List TcpEvent) (s : TcpLoop)
    (hrun : tcpLoopRun capacity listener peerNodeID args tcpLoopInit evs = some s) :
    s.running ≤ capacity
      ∧ s.accepts ≤ capacity + s.released
      ∧ (capacity = 2 → 3 ≤ s.accepts → 1 ≤ s.released)
      ∧ (∀ c1 c2 : Conn,
          tcpLoopRun 2 listener peerNodeID args tcpLoopInit
            [TcpEvent.send, TcpEvent.accept (.ok c1), TcpEvent.send, TcpEvent.accept (.ok c2),
              TcpEvent.send] = none
          ∧ (tcpLoopRun 2 listener peerNodeID args tcpLoopInit
            [TcpEvent.send, TcpEvent.accept (.ok c1), TcpEvent.send,
              TcpEvent.accept (.ok c2)]).map (fun s => (s.running, s.accepts)) = some (2, 2)
          ∧ (tcpLoopRun 2 listener peerNodeID args tcpLoopInit
            [TcpEvent.send, TcpEvent.accept (.ok c1), TcpEvent.send, TcpEvent.accept (.ok c2),
              TcpEvent.finish, TcpEvent.send]).map (fun s => (s.running, s.accepts))
            = some (1, 3)) := by
  obtain ⟨h1, h2, h3⟩ :=
    tcpInv_run capacity listener peerNodeID args evs tcpLoopInit s (tcpInv_init capacity) hrun
  refine ⟨by omega, by omega, by omega, ?_⟩
  intro c1 c2
  exact ⟨rfl, rfl, rfl⟩

/-- C6 at an accept error followed by an accepted connection, capacity 2. -/
theorem admission_bound_witness :
    tcpLoopRun 2 (some 1) "peer" [] tcpLoopInit sampleEvents = some sampleState
      ∧ sampleState.running ≤ 2
      ∧ sampleState.accepts ≤ 2 + sampleState.released :=
  ⟨rfl,
    (admission_bound 2 (some 1) "peer" [] sampleEvents sampleState rfl).1,
    (admission_bound 2 (some 1) "peer" [] sampleEvents sampleState rfl).2.1⟩

/-! ## What the handler of `InitTCP` receives -/

/-- C8 (as stated, refuted): called with the two extra arguments `"a"` and `2`,
the connect path of `InitTCP` invokes the handler with a variadic list of length
one, whose element is the slice holding both, not with the list of the two. -/
theorem extra_arguments_wrapped :
    handlerCalls (InitTCP sampleNet "connect" "10.0.0.1:9999" "peer"
        [Iface.str "a", Iface.num 2]).2
      = [("peer", [Iface.slice [Iface.str "a", Iface.num 2]])]
      ∧ [Iface.slice [Iface.str "a", Iface.num 2]] ≠ [Iface.str "a", Iface.num 2]
      ∧ [Iface.slice [Iface.str "a", Iface.num 2]].length ≠ [Iface.str "a", Iface.num 2].length := by
  refine ⟨rfl, ?_, ?_⟩
  · simp
  · simp

theorem handlerCalls_step (capacity : Nat) (listener : Listener) (peerNodeID : String)
    (args : List Iface) (s s1 : TcpLoop) (e : TcpEvent)
    (hinv : ∀ call ∈ handlerCalls s.ops, call = (peerNodeID, [Iface.slice args]))
    (hstep : tcpLoopStep capacity listener peerNodeID args s e = some s1) :
    ∀ call ∈ handlerCalls s1.ops, call = (peerNodeID, [Iface.slice args]) := by
  cases e with
  | send =>
    simp only [tcpLoopStep] at hstep
    split at hstep
    · cases hstep
      simpa [handlerCalls, List.filterMap_append] using hinv
    · cases hstep
  | accept r =>
    cases r with
    | error err =>
      simp only [tcpLoopStep] at hstep
      split at hstep
      · cases hstep
        simpa [handlerCalls, List.filterMap_append] using hinv
      · cases hstep
    | ok conn =>
      simp only [tcpLoopStep] at hstep
      split at hstep
      · cases hstep
        intro call hcall
        simp only [handlerCalls, List.filterMap_append, List.mem_append] at hcall
        rcases hcall with hcall | hcall
        · exact hinv call hcall
        · simpa using hcall
      · cases hstep
  | finish =>
    simp only [tcpLoopStep] at hstep
    split at hstep
    · cases hstep
      exact hinv
    · cases hstep

theorem handlerCalls_run (capacity : Nat) (listener : Listener) (peerNodeID : String)
    (args : List Iface) (evs : List TcpEvent) :
    ∀ s s1 : TcpLoop,
      (∀ call ∈ handlerCalls s.ops, call = (peerNodeID, [Iface.slice args])) →
      tcpLoopRun capacity listener peerNodeID args s evs = some s1 →
      ∀ call ∈ handlerCalls s1.ops, call = (peerNodeID, [Iface.slice args]) := by
  induction evs with
  | nil =>
    intro s s1 hinv hrun
    simp only [tcpLoopRun] at hrun
    cases hrun
    exact hinv
  | cons e es ih =>
    intro s s1 hinv hrun
    simp only [tcpLoopRun] at hrun
    cases hstep : tcpLoopStep capacity listener peerNodeID args s e with
    | none => rw [hstep] at hrun; cases hrun
    | some s2 =>
      rw [hstep] at hrun
      exact ih s2 s1
        (handlerCalls_step capacity listener peerNodeID args s s2 e hinv hstep) hrun

/-- C8 (amended): on the connect path and on the listen path of `InitTCP` every
handler invocation receives `peerNodeID` unmodified and a variadic list of exactly
one element, the slice `[a1, ..., an]` of the caller's extra arguments, with the
same length, elements and order. On the connect path a successful dial makes
exactly one such invocation; on the listen path every accepted connection makes
one. -/
theorem handler_arguments (net : Net) (tcpService peerNodeID : String) (args : List Iface)
    (addr : Addr) (conn : Conn) (capacity : Nat) (listener : Listener)
    (evs : List TcpEvent) (s : TcpLoop)
    (hres : net.ResolveTCPAddr tcpService = .ok addr) (hdial : net.DialTCP addr = .ok conn)
    (hrun : tcpLoopRun capacity listener peerNodeID args tcpLoopInit evs = some s) :
    handlerCalls (InitTCP net "connect" tcpService peerNodeID args).2
        = [(peerNodeID, [Iface.slice args])]
      ∧ (∀ call ∈ handlerCalls s.ops, call = (peerNodeID, [Iface.slice args]))
      ∧ (∀ c : Conn, s.pc = LoopPc.accept →
          (tcpLoopStep capacity listener peerNodeID args s (TcpEvent.accept (.ok c))).map
              (fun s1 => handlerCalls s1.ops)
            = some (handlerCalls s.ops ++ [(peerNodeID, [Iface.slice args])])) := by
  refine ⟨?_, ?_, ?_⟩
  · simp [InitTCP, hres, hdial, handlerCalls]
  · exact handlerCalls_run capacity listener peerNodeID args evs tcpLoopInit s
      (by simp [tcpLoopInit, handlerCalls]) hrun
  · intro c hpc
    simp [tcpLoopStep, hpc, handlerCalls, List.filterMap_append]

/-- C8 (amended) at a call without extra arguments. -/
theorem handler_arguments_witness :
    (sampleNet.ResolveTCPAddr "10.0.0.1:9999" = .ok "10.0.0.1:9999"
        ∧ sampleNet.DialTCP "10.0.0.1:9999" = .ok 100
        ∧ tcpLoopRun 2 (some 1) "peer" [] tcpLoopInit sampleEvents = some sampleState)
      ∧ handlerCalls (InitTCP sampleNet "connect" "10.0.0.1:9999" "peer" []).2
        = [("peer", [Iface.slice []])]
      ∧ (∀ call ∈ handlerCalls sampleState.ops, call = ("peer", [Iface.slice []])) :=
  ⟨⟨rfl, rfl, rfl⟩,
    (handler_arguments sampleNet "10.0.0.1:9999" "peer" [] "10.0.0.1:9999" 100 2 (some 1)
      sampleEvents sampleState rfl rfl rfl).1,
    (handler_arguments sampleNet "10.0.0.1:9999" "peer" [] "10.0.0.1:9999" 100 2 (some 1)
      sampleEvents sampleState rfl rfl rfl).2.1⟩

/-! ## The relay -/

theorem relay_eq_foldl (w : Wire) (conn server : Conn) (data : List Byte)
    (sched : List (Bool × Nat)) :
    relay w conn server data sched
      = sched.foldl (relayStep conn server) (Write w server data) := rfl

theorem relayStep_stream (conn server : Conn) (hne : conn ≠ server) (w : Wire) (e : Bool × Nat) :
    (relayStep conn server w e).written server ++ (relayStep conn server w e).pending conn
        = w.written server ++ w.pending conn
      ∧ (∃ x, (relayStep conn server w e).written server = w.written server ++ x)
      ∧ ((relayStep conn server w e).pending conn).length
        = (w.pending conn).length - budget [e] := by
  obtain ⟨b, n⟩ := e
  have hne2 : server ≠ conn := fun h => hne h.symm
  cases b
  · simp [relayStep, NetCopyStep, Write, budget, Function.update, hne]
  · simp [relayStep, NetCopyStep, Write, budget, Function.update, hne, hne2]

theorem budget_cons (e : Bool × Nat) (es : List (Bool × Nat)) :
    budget (e :: es) = budget [e] + budget es := by
  obtain ⟨b, n⟩ := e
  cases b <;> simp [budget]

theorem foldl_stream (conn server : Conn) (hne : conn ≠ server) (sched : List (Bool × Nat)) :
    ∀ w : Wire,
      (sched.foldl (relayStep conn server) w).written server
          ++ (sched.foldl (relayStep conn server) w).pending conn
          = w.written server ++ w.pending conn
        ∧ (∃ x, (sched.foldl (relayStep conn server) w).written server = w.written server ++ x)
        ∧ ((sched.foldl (relayStep conn server) w).pending conn).length
          = (w.pending conn).length - budget sched := by
  induction sched with
  | nil =>
    intro w
    exact ⟨rfl, ⟨[], by simp⟩, by simp [budget]⟩
  | cons e es ih =>
    intro w
    obtain ⟨h1, ⟨x, h2⟩, h3⟩ := relayStep_stream conn server hne w e
    obtain ⟨i1, ⟨y, i2⟩, i3⟩ := ih (relayStep conn server w e)
    simp only [List.foldl_cons]
    refine ⟨by rw [i1, h1], ⟨x ++ y, by rw [i2, h2, List.append_assoc]⟩, ?_⟩
    rw [i3, h3, budget_cons e es]
    omega

/-- C5: for a foreign connection `conn` with consumed bytes `d` and further client
bytes `r`, when the port is found and the resolution and the dial of the local
service succeed, the camouflage goroutine writes `d` to the new connection once,
before it starts the two copies; under every interleaving of the two copies the
bytes written to the local service followed by the client bytes not yet read are
`d ++ r`, the written bytes begin with `d`, and once the copy towards the local
service has read all of `r` the bytes written to the local service are exactly
`d ++ r`. -/
theorem relay_stream (net : Net) (tcpService port : String) (addr : Addr)
    (conn server : Conn) (d r : List Byte) (w : Wire) (sched : List (Bool × Nat))
    (hport : splitPort tcpService = some port)
    (hres : net.ResolveTCPAddr ("127.0.0.1:" ++ port) = .ok addr)
    (hdial : net.DialTCP addr = .ok server)
    (hne : conn ≠ server) (hfresh : w.written server = []) (hr : w.pending conn = r) :
    camouflage net tcpService conn d
        = [Op.ResolveTCPAddr ("127.0.0.1:" ++ port), Op.DialTCP addr, Op.Write server d,
            Op.Go (Task.NetCopy conn server), Op.NetCopy server conn]
      ∧ (relay w conn server d sched).written server
          ++ (relay w conn server d sched).pending conn = d ++ r
      ∧ (∃ x, (relay w conn server d sched).written server = d ++ x)
      ∧ (r.length ≤ budget sched → (relay w conn server d sched).written server = d ++ r) := by
  have hne2 : server ≠ conn := fun h => hne h.symm
  have hw : (Write w server d).written server = d := by
    simp [Write, hfresh]
  have hp : (Write w server d).pending conn = r := by
    simp [Write, hr]
  obtain ⟨h1, ⟨x, h2⟩, h3⟩ := foldl_stream conn server hne sched (Write w server d)
  rw [← relay_eq_foldl] at h1 h2 h3
  rw [hw] at h2
  rw [hw, hp] at h1
  rw [hp] at h3
  refine ⟨?_, h1, ⟨x, h2⟩, ?_⟩
  · simp [camouflage, hport, hres, hdial]
  · intro hb
    have h0 : ((relay w conn server d sched).pending conn).length = 0 := by omega
    have hnil : (relay w conn server d sched).pending conn = [] := List.length_eq_zero.mp h0
    rw [hnil, List.append_nil] at h1
    exact h1

/-- C5 at the listen address `:8080`, consumed byte `G` and further bytes `ET /`. -/
theorem relay_stream_witness :
    (splitPort ":8080" = some "8080"
        ∧ sampleNet.ResolveTCPAddr ("127.0.0.1:" ++ "8080") = .ok "127.0.0.1:8080"
        ∧ sampleNet.DialTCP "127.0.0.1:8080" = .ok 100
        ∧ (7 : Conn) ≠ 100 ∧ sampleWire.written 100 = [] ∧ sampleWire.pending 7 = [69, 84, 32, 47]
        ∧ [69, 84, 32, 47].length ≤ budget [(false, 3), (true, 9), (false, 2)])
      ∧ (relay sampleWire 7 100 [71] [(false, 3), (true, 9), (false, 2)]).written 100
        = [71] ++ [69, 84, 32, 47] :=
  ⟨⟨by decide, rfl, rfl, by decide, rfl, rfl, by decide⟩,
    (relay_stream sampleNet ":8080" "8080" "127.0.0.1:8080" 7 100 [71] [69, 84, 32, 47]
      sampleWire [(false, 3), (true, 9), (false, 2)] (by decide) rfl rfl (by decide) rfl rfl).2.2.2
      (by decide)⟩

/-! ## The address of the local service -/

theorem splitChars_ne_nil (sep : Char) (l : List Char) : splitChars sep l ≠ [] := by
  cases l with
  | nil => simp [splitChars]
  | cons c cs =>
    simp only [splitChars]
    split
    · simp
    · split <;> simp

theorem splitChars_of_not_mem (sep : Char) (l : List Char) (h : sep ∉ l) :
    splitChars sep l = [l] := by
  induction l with
  | nil => rfl
  | cons c cs ih =>
    have hc : c ≠ sep := fun e => h (by simp [e])
    have hcs : sep ∉ cs := fun e => h (by simp [e])
    simp [splitChars, ih hcs, hc]

theorem splitChars_append_sep (sep : Char) (host rest : List Char) (h : sep ∉ host) :
    splitChars sep (host ++ sep :: rest) = host :: splitChars sep rest := by
  induction host with
  | nil =>
    simp only [List.nil_append, splitChars]
    cases hr : splitChars sep rest with
    | nil => exact absurd hr (splitChars_ne_nil sep rest)
    | cons hd tl => simp
  | cons c cs ih =>
    have hc : c ≠ sep := fun e => h (by simp [e])
    have hcs : sep ∉ cs := fun e => h (by simp [e])
    simp [splitChars, ih hcs, hc]

/-- Where the split at `:` does find the port: a listen address `host:port` whose
host and port contain no colon. -/
theorem splitPort_host_port (host port : List Char) (hh : ':' ∉ host) (hp : ':' ∉ port) :
    splitPort (String.mk (host ++ ':' :: port)) = some (String.mk port) := by
  simp [splitPort, splitChars_append_sep ':' host port hh, splitChars_of_not_mem ':' port hp]

theorem splitChars_length (sep : Char) (l : List Char) (h : sep ∈ l) :
    2 ≤ (splitChars sep l).length := by
  induction l with
  | nil => simp at h
  | cons c cs ih =>
    simp only [splitChars]
    cases hr : splitChars sep cs with
    | nil => exact absurd hr (splitChars_ne_nil sep cs)
    | cons hd tl =>
      by_cases hc : c = sep
      · simp [hc]
      · have hcs : sep ∈ cs := by
          rcases List.mem_cons.mp h with e | e
          · exact absurd e.symm hc
          · exact e
        have := ih hcs
        rw [hr] at this
        simpa [hc] using this

/-- The index expression does not panic on an address that contains a colon. -/
theorem splitPort_isSome (tcpService : String) (h : ':' ∈ tcpService.data) :
    (splitPort tcpService).isSome = true := by
  have hlen := splitChars_length ':' tcpService.data h
  have hlt : 1 < (splitChars ':' tcpService.data).length := by omega
  simp [splitPort, List.getElem?_eq_getElem hlt]

/-- C9 (the code at the failing input): for the listen address `[::1]:8080` the
second piece of the split at `:` is empty, so the camouflage goroutine resolves
and dials `127.0.0.1:` with no port, not `127.0.0.1:8080`. -/
theorem ipv6_listen_address_port :
    splitChars ':' "[::1]:8080".data = ["[".data, [], "1]".data, "8080".data]
      ∧ splitPort "[::1]:8080" = some ""
      ∧ dials (camouflage sampleNet "[::1]:8080" 7 []) = ["127.0.0.1:"]
      ∧ dials (camouflage sampleNet "[::1]:8080" 7 []) ≠ ["127.0.0.1:8080"] := by
  refine ⟨by decide, by decide, rfl, ?_⟩
  have h : dials (camouflage sampleNet "[::1]:8080" 7 []) = ["127.0.0.1:"] := rfl
  rw [h]
  decide

end Netio
